import Mathlib

/-!
Verification of the COBYLA core of the prima Python binding.

The Python sources under `src/python/src/prima` are shallowly embedded here.
IEEE-754 double values are modelled by the type `EF`: a NaN, two infinities,
or an exact rational; arithmetic on finite values is exact (no rounding, no
overflow to infinity, signed zero not distinguished), while the NaN/Inf
propagation and comparison rules follow IEEE-754, which is what the claims
under study depend on.  Library calls that are numerically inexact in the
source (`np.linalg.inv`, `np.sqrt`) are taken as parameters of the embedded
functions and constrained, where a claim needs it, by hypotheses that the
floating-point routine satisfies.

Numpy arrays are mutated in place by the source; where a claim depends on
the aliasing behaviour (`updatexfc`, `updatepole`, and the geometry branch
of `cobylb`), the embedding returns, next to the value of the Python
`return` statement, the final contents of the caller's array objects, and
comments at those points explain which Python name is an alias of which
object.
-/

/-- Kernel-friendly rational addition: the Batteries operations on ℚ are
irreducible, so the embedding computes through mkRat, which the kernel can
evaluate; the lemmas below identify these with the field operations. -/
def qadd (a b : ℚ) : ℚ := mkRat (a.num * b.den + b.num * a.den) (a.den * b.den)

/-- Kernel-friendly rational multiplication. -/
def qmul (a b : ℚ) : ℚ := mkRat (a.num * b.num) (a.den * b.den)

/-- Kernel-friendly rational negation. -/
def qneg (a : ℚ) : ℚ := mkRat (-a.num) a.den

/-- Kernel-friendly rational absolute value. -/
def qabs (a : ℚ) : ℚ := mkRat (a.num.natAbs) a.den

/-- Kernel-friendly rational division (correct for b ≠ 0; total anyway). -/
def qdiv (a b : ℚ) : ℚ := mkRat (a.num * b.den * b.num.sign) (a.den * b.num.natAbs)

lemma qadd_eq (a b : ℚ) : qadd a b = a + b := by
  have ha : ((a.den : ℚ)) ≠ 0 := by exact_mod_cast a.den_nz
  have hb : ((b.den : ℚ)) ≠ 0 := by exact_mod_cast b.den_nz
  rw [qadd, Rat.mkRat_eq_div]
  push_cast
  conv_rhs => rw [← Rat.num_div_den a, ← Rat.num_div_den b]
  field_simp

lemma qmul_eq (a b : ℚ) : qmul a b = a * b := by
  have ha : ((a.den : ℚ)) ≠ 0 := by exact_mod_cast a.den_nz
  have hb : ((b.den : ℚ)) ≠ 0 := by exact_mod_cast b.den_nz
  rw [qmul, Rat.mkRat_eq_div]
  push_cast
  conv_rhs => rw [← Rat.num_div_den a, ← Rat.num_div_den b]
  field_simp

lemma qneg_eq (a : ℚ) : qneg a = -a := by
  have ha : ((a.den : ℚ)) ≠ 0 := by exact_mod_cast a.den_nz
  rw [qneg, Rat.mkRat_eq_div]
  push_cast
  conv_rhs => rw [← Rat.num_div_den a]
  field_simp

lemma qabs_eq (a : ℚ) : qabs a = |a| := by
  have hd : (0 : ℚ) < (a.den : ℚ) := by exact_mod_cast a.pos
  rw [qabs, Rat.mkRat_eq_div]
  conv_rhs => rw [← Rat.num_div_den a]
  rw [abs_div]
  congr 1
  · simp [Int.cast_natAbs]
  · rw [abs_of_pos hd]

lemma qdiv_eq (a b : ℚ) (hb : b ≠ 0) : qdiv a b = a / b := by
  have ha : ((a.den : ℚ)) ≠ 0 := by exact_mod_cast a.den_nz
  have hbd : ((b.den : ℚ)) ≠ 0 := by exact_mod_cast b.den_nz
  have hbn : b.num ≠ 0 := Rat.num_ne_zero.mpr hb
  have hcast : ((b.num.natAbs : ℚ)) = |(b.num : ℚ)| := by
    rw [Int.cast_natAbs, Int.cast_abs]
  rw [qdiv, Rat.mkRat_eq_div]
  push_cast
  conv_rhs => rw [← Rat.num_div_den a, ← Rat.num_div_den b]
  rcases lt_trichotomy b.num 0 with h | h | h
  · have hq : (b.num : ℚ) < 0 := by exact_mod_cast h
    rw [Int.sign_eq_neg_one_of_neg h, hcast, abs_of_neg hq]
    push_cast
    field_simp
  · exact absurd h hbn
  · have hq : (0 : ℚ) < (b.num : ℚ) := by exact_mod_cast h
    rw [Int.sign_eq_one_of_pos h, hcast, abs_of_pos hq]
    push_cast
    field_simp

/-- Model of an IEEE-754 double: NaN, plus or minus infinity, or an exact
finite value (a rational; rounding and overflow are not modelled). -/
inductive EF where
  | nan : EF
  | pinf : EF
  | ninf : EF
  | val : ℚ → EF
deriving DecidableEq, Repr

namespace EF

/-- np.isnan. -/
def isnan : EF → Bool
  | .nan => true
  | _ => false

/-- np.isinf (true for either infinity). -/
def isinf : EF → Bool
  | .pinf => true
  | .ninf => true
  | _ => false

/-- np.isposinf. -/
def isposinf : EF → Bool
  | .pinf => true
  | _ => false

/-- IEEE negation. -/
def neg : EF → EF
  | .nan => .nan
  | .pinf => .ninf
  | .ninf => .pinf
  | .val a => .val (qneg a)

/-- IEEE strict less-than: any comparison with NaN is false. -/
def lt : EF → EF → Bool
  | .nan, _ => false
  | _, .nan => false
  | .ninf, .ninf => false
  | .ninf, _ => true
  | _, .ninf => false
  | .pinf, _ => false
  | .val _, .pinf => true
  | .val a, .val b => decide (a < b)

/-- IEEE equality: any comparison with NaN is false. -/
def beq : EF → EF → Bool
  | .pinf, .pinf => true
  | .ninf, .ninf => true
  | .val a, .val b => decide (a = b)
  | _, _ => false

/-- IEEE non-strict less-than-or-equal. -/
def le (a b : EF) : Bool := lt a b || beq a b

/-- IEEE addition (exact on finite values). -/
def add : EF → EF → EF
  | .nan, _ => .nan
  | _, .nan => .nan
  | .pinf, .ninf => .nan
  | .ninf, .pinf => .nan
  | .pinf, _ => .pinf
  | _, .pinf => .pinf
  | .ninf, _ => .ninf
  | _, .ninf => .ninf
  | .val a, .val b => .val (qadd a b)

/-- IEEE subtraction. -/
def sub (a b : EF) : EF := add a (neg b)

/-- IEEE multiplication (exact on finite values); `inf * 0 = NaN`. -/
def mul : EF → EF → EF
  | .nan, _ => .nan
  | _, .nan => .nan
  | .pinf, .pinf => .pinf
  | .pinf, .ninf => .ninf
  | .ninf, .pinf => .ninf
  | .ninf, .ninf => .pinf
  | .pinf, .val b => if 0 < b then .pinf else if b < 0 then .ninf else .nan
  | .ninf, .val b => if 0 < b then .ninf else if b < 0 then .pinf else .nan
  | .val a, .pinf => if 0 < a then .pinf else if a < 0 then .ninf else .nan
  | .val a, .ninf => if 0 < a then .ninf else if a < 0 then .pinf else .nan
  | .val a, .val b => .val (qmul a b)

/-- IEEE division (exact on finite values); `x/0` follows IEEE with the
zero taken as `+0` (signed zero is not modelled, which no claim depends
on); `inf/inf = NaN`, `0/0 = NaN`. -/
def div : EF → EF → EF
  | .nan, _ => .nan
  | _, .nan => .nan
  | .pinf, .pinf => .nan
  | .pinf, .ninf => .nan
  | .ninf, .pinf => .nan
  | .ninf, .ninf => .nan
  | .pinf, .val b => if b < 0 then .ninf else .pinf
  | .ninf, .val b => if b < 0 then .pinf else .ninf
  | .val _, .pinf => .val 0
  | .val _, .ninf => .val 0
  | .val a, .val b =>
      if b = 0 then (if a = 0 then .nan else if 0 < a then .pinf else .ninf)
      else .val (qdiv a b)

/-- IEEE absolute value. -/
def abs : EF → EF
  | .nan => .nan
  | .pinf => .pinf
  | .ninf => .pinf
  | .val a => .val (qabs a)

end EF

/-- Python builtin `max(a, b)`: returns `b` exactly when `b > a` (hence
order dependent in the presence of NaN, like CPython). -/
def pyMax2 (a b : EF) : EF := if EF.lt a b then b else a

/-- Python builtin `min(a, b)`: returns `b` exactly when `b < a`. -/
def pyMin2 (a b : EF) : EF := if EF.lt b a then b else a

/-- np.maximum: NaN propagating two-argument maximum. -/
def npMax2 (a b : EF) : EF :=
  if EF.isnan a || EF.isnan b then .nan else if EF.lt a b then b else a

/-- np.minimum: NaN propagating two-argument minimum. -/
def npMin2 (a b : EF) : EF :=
  if EF.isnan a || EF.isnan b then .nan else if EF.lt b a then b else a

/-- Python builtin `max` over an iterable: left fold of `if x > acc then x`
starting from the first element.  Python raises on an empty iterable; the
embedding returns NaN there (all uses below are on nonempty lists). -/
def pyMaxList : List EF → EF
  | [] => .nan
  | h :: t => t.foldl (fun acc x => if EF.lt acc x then x else acc) h

/-- Python builtin `min` over an iterable, analogous to `pyMaxList`. -/
def pyMinList : List EF → EF
  | [] => .nan
  | h :: t => t.foldl (fun acc x => if EF.lt x acc then x else acc) h

/-- np.max over a (flattened) array: NaN propagating. Empty input is an
error in numpy; the embedding returns NaN there. -/
def npMaxList : List EF → EF
  | [] => .nan
  | h :: t => t.foldl npMax2 h

/-- Python builtin `sum` / numpy dot-product accumulation: left fold of
addition starting from 0. -/
def sumEF (l : List EF) : EF := l.foldl EF.add (EF.val 0)

/-- The largest finite IEEE double, `np.finfo(float).max`, written as an
explicit numeral so that the kernel can evaluate comparisons with it. -/
def FLOATMAX : ℚ := mkRat 179769313486231570814527423731704356798070567525844996598917476803157260780028538760589558632766878171540458953514382464234321326889464182768467546703537516986049910576551282076245490090389328944075868508455133942304583236903222948165808559332123348274797826204144723168738177180919299881250404026184124858368 1

lemma FLOATMAX_eq : FLOATMAX = (2 ^ 53 - 1) * 2 ^ 971 := by
  rw [FLOATMAX, Rat.mkRat_eq_div]
  norm_num

/-- Modelled from the spec: `consts.py` is not among the provided sources.
EPS is the double-precision machine epsilon (section 4.1 of the spec). -/
def EPS : EF := .val (mkRat 1 4503599627370496)

lemma EPS_val : EPS = .val (1 / 2 ^ 52) := by
  rw [EPS, Rat.mkRat_eq_div]
  norm_num

/-- Modelled from the spec: REALMAX is the largest finite double. -/
def REALMAX : EF := .val FLOATMAX

/-- Modelled from the spec: FUNCMAX, the moderation bound for objective
values (section 4.1). -/
def FUNCMAX : EF := .val (mkRat 1000000000000000000000000000000 1)

lemma FUNCMAX_val : FUNCMAX = .val (10 ^ 30) := by
  rw [FUNCMAX, Rat.mkRat_eq_div]
  norm_num

/-- Modelled from the spec: CONSTRMAX, the moderation bound for constraint
values (section 4.1). -/
def CONSTRMAX : EF := .val (mkRat 1000000000000000000000000000000 1)

lemma CONSTRMAX_val : CONSTRMAX = .val (10 ^ 30) := by
  rw [CONSTRMAX, Rat.mkRat_eq_div]
  norm_num

/-- Modelled from the spec: the exit codes of section 6 are distinct
integers (values follow the upstream PRIMA conventions; only their
distinctness matters to the claims). -/
def INFO_DEFAULT : Int := 0

/-- Modelled from the spec: exit code FTARGET_ACHIEVED. -/
def FTARGET_ACHIEVED : Int := 1

/-- Modelled from the spec: exit code MAXFUN_REACHED. -/
def MAXFUN_REACHED : Int := 3

/-- Modelled from the spec: exit code NAN_INF_X. -/
def NAN_INF_X : Int := -1

/-- Modelled from the spec: exit code NAN_INF_F. -/
def NAN_INF_F : Int := -2

/-- Modelled from the spec: exit code DAMAGING_ROUNDING. -/
def DAMAGING_ROUNDING : Int := 7

/-- Modelled from the spec: exit code MAXTR_REACHED. -/
def MAXTR_REACHED : Int := 20

/-- Modelled from the spec: exit code SMALL_TR_RADIUS. -/
def SMALL_TR_RADIUS : Int := 0

/-- np.nan_to_num with a given replacement for NaN; infinities go to the
largest finite double of matching sign (the numpy defaults). -/
def nanToNum (nanRep : EF) : EF → EF
  | .nan => nanRep
  | .pinf => .val FLOATMAX
  | .ninf => .val (-FLOATMAX)
  | .val a => .val a

/-- np.clip: NaN passes through, otherwise clamp into `[lo, hi]`. -/
def npClip (lo hi x : EF) : EF :=
  if EF.isnan x then .nan else npMin2 (npMax2 x lo) hi

/-- Embedding of `moderatef` (evaluate.py lines 13-15): replace NaN by
FUNCMAX, then take the Python builtin `min` with FUNCMAX. -/
def moderatef (f : EF) : EF :=
  pyMin2 FUNCMAX (if EF.isnan f then FUNCMAX else f)

/-- One component of `moderatec` (evaluate.py lines 17-20):
`np.nan_to_num(c, nan=-CONSTRMAX)` followed by
`np.clip(c, -CONSTRMAX, CONSTRMAX)`. -/
def moderatec1 (c : EF) : EF :=
  npClip (EF.neg CONSTRMAX) CONSTRMAX (nanToNum (EF.neg CONSTRMAX) c)

/-- Embedding of `moderatec`, applied componentwise. -/
def moderatec (c : List EF) : List EF := c.map moderatec1

/-- One component of `moderatex` (evaluate.py lines 8-11):
`np.nan_to_num(x, nan=FUNCMAX)` followed by
`np.clip(x, -np.finfo(float).max, np.finfo(float).max)`. -/
def moderatex1 (x : EF) : EF :=
  npClip (.val (-FLOATMAX)) (.val FLOATMAX) (nanToNum FUNCMAX x)

/-- Embedding of `moderatex`, applied componentwise. -/
def moderatex (x : List EF) : List EF := x.map moderatex1

lemma moderatef_idem (f : EF) : moderatef (moderatef f) = moderatef f := by
  cases f with
  | nan => rfl
  | pinf => rfl
  | ninf => rfl
  | val q =>
      simp only [moderatef, EF.isnan, pyMin2, FUNCMAX_val, EF.lt]
      by_cases h : q < 10 ^ 30
      · simp [h]
      · simp [h]

lemma moderatec1_idem (c : EF) : moderatec1 (moderatec1 c) = moderatec1 c := by
  have hFpos : (0 : ℚ) < FLOATMAX := by rw [FLOATMAX_eq]; norm_num
  have h10F : (10 : ℚ) ^ 30 < FLOATMAX := by rw [FLOATMAX_eq]; norm_num
  have hCM : (0 : ℚ) < 10 ^ 30 := by norm_num
  have e1 : ¬(-(10 ^ 30 : ℚ) < -(10 ^ 30)) := lt_irrefl _
  have e2 : ¬((10 ^ 30 : ℚ) < -(10 ^ 30)) := by linarith
  have e3 : ¬(FLOATMAX < -(10 ^ 30 : ℚ)) := by linarith
  have e4 : (10 ^ 30 : ℚ) < FLOATMAX := h10F
  have e5 : ¬((10 ^ 30 : ℚ) < 10 ^ 30) := lt_irrefl _
  have e6 : -FLOATMAX < -(10 ^ 30 : ℚ) := by linarith
  cases c with
  | nan =>
      simp [moderatec1, nanToNum, npClip, CONSTRMAX_val, EF.neg, qneg_eq, EF.isnan, npMin2,
        npMax2, EF.lt, e1, e2]
  | pinf =>
      simp [moderatec1, nanToNum, npClip, CONSTRMAX_val, EF.neg, qneg_eq, EF.isnan, npMin2,
        npMax2, EF.lt, e2, e3, e4, e5]
  | ninf =>
      simp [moderatec1, nanToNum, npClip, CONSTRMAX_val, EF.neg, qneg_eq, EF.isnan, npMin2,
        npMax2, EF.lt, e1, e2, e6]
  | val q =>
      by_cases h1 : q < -(10 ^ 30)
      · simp [moderatec1, nanToNum, npClip, CONSTRMAX_val, EF.neg, qneg_eq, EF.isnan, npMin2,
          npMax2, EF.lt, h1, e1, e2]
      · by_cases h2 : (10 ^ 30 : ℚ) < q
        · simp [moderatec1, nanToNum, npClip, CONSTRMAX_val, EF.neg, qneg_eq, EF.isnan, npMin2,
            npMax2, EF.lt, h1, h2, e2, e5]
        · simp [moderatec1, nanToNum, npClip, CONSTRMAX_val, EF.neg, qneg_eq, EF.isnan, npMin2,
            npMax2, EF.lt, h1, h2]

lemma moderatex1_idem (x : EF) : moderatex1 (moderatex1 x) = moderatex1 x := by
  have hFpos : (0 : ℚ) < FLOATMAX := by rw [FLOATMAX_eq]; norm_num
  have h10F : (10 : ℚ) ^ 30 < FLOATMAX := by rw [FLOATMAX_eq]; norm_num
  have f1 : ¬((10 ^ 30 : ℚ) < -FLOATMAX) := by linarith
  have f2 : ¬(FLOATMAX < (10 ^ 30 : ℚ)) := by linarith
  have f3 : ¬(FLOATMAX < -FLOATMAX) := by linarith
  have f4 : ¬(FLOATMAX < FLOATMAX) := lt_irrefl _
  have f5 : ¬(-FLOATMAX < -FLOATMAX) := lt_irrefl _
  cases x with
  | nan =>
      simp [moderatex1, nanToNum, npClip, FUNCMAX_val, EF.isnan, npMin2, npMax2, EF.lt, f1, f2]
  | pinf =>
      simp [moderatex1, nanToNum, npClip, EF.isnan, npMin2, npMax2, EF.lt, f3, f4]
  | ninf =>
      simp [moderatex1, nanToNum, npClip, EF.isnan, npMin2, npMax2, EF.lt, f3, f5]
  | val q =>
      by_cases h1 : q < -FLOATMAX
      · simp [moderatex1, nanToNum, npClip, EF.isnan, npMin2, npMax2, EF.lt, h1, f3, f5]
      · by_cases h2 : FLOATMAX < q
        · simp [moderatex1, nanToNum, npClip, EF.isnan, npMin2, npMax2, EF.lt, h1, h2, f3, f4]
        · simp [moderatex1, nanToNum, npClip, EF.isnan, npMin2, npMax2, EF.lt, h1, h2]

/-- C10: each of moderatef, moderatec and moderatex is idempotent:
applying it twice yields, componentwise, the same result as applying it
once. -/
theorem moderate_idempotent :
    (∀ f : EF, moderatef (moderatef f) = moderatef f) ∧
    (∀ c : List EF, moderatec (moderatec c) = moderatec c) ∧
    (∀ x : List EF, moderatex (moderatex x) = moderatex x) := by
  refine ⟨moderatef_idem, ?_, ?_⟩
  · intro c
    simp [moderatec, List.map_map, Function.comp, moderatec1_idem]
  · intro x
    simp [moderatex, List.map_map, Function.comp, moderatex1_idem]

/-- Embedding of `isbetter` (selectx.py lines 15-37).  The four `or`
clauses are accumulated exactly as in the source; in particular the first
clause sets the result to true when (f1, c1) contains NaN while (f2, c2)
does not, which is the behaviour claim C4 is about. -/
def isbetter (f1 c1 f2 c2 ctol : EF) : Bool :=
  let b1 := false || ((EF.isnan f1 || EF.isnan c1) && !(EF.isnan f2 || EF.isnan c2))
  let b2 := b1 || (EF.lt f1 f2 && EF.le c1 c2)
  let b3 := b2 || (EF.le f1 f2 && EF.lt c1 c2)
  let cref := EF.mul (.val 10) (pyMax2 EPS (pyMin2 ctol (EF.mul (.val (mkRat 1 100)) CONSTRMAX)))
  b3 || (EF.lt f1 REALMAX && EF.le c1 ctol && (EF.lt (pyMax2 ctol cref) c2 || EF.isnan c2))

/-- C4 (refuted; code bug): the claim says isbetter(f1, c1, f2, c2, ctol)
returns False whenever f1 or c1 is NaN while neither f2 nor c2 is, but
selectx.py line 27 sets the result to True in exactly that situation: at
f1 = NaN, c1 = c2 = f2 = 0, ctol = 0 the code returns True. -/
theorem isbetter_nan_first_pair_returns_true :
    isbetter .nan (.val 0) (.val 0) (.val 0) (.val 0) = true := by decide

/-- Embedding of `redrho` (cobylb.py lines 31-48) over exact rationals.
The library call np.sqrt is abstracted as the parameter s (the source
computes `np.sqrt(rho_ratio) * rhoend`); the literal 0.1 is modelled as
the exact rational 1/10. -/
def redrho (s : ℚ → ℚ) (rho rhoend : ℚ) : ℚ :=
  let rho_ratio := rho / rhoend
  if 250 < rho_ratio then rho * (1 / 10)
  else if rho_ratio ≤ 16 then rhoend
  else s rho_ratio * rhoend

/-- C8: for 0 < rhoend < rho, redrho(rho, rhoend) returns a value r with
rhoend ≤ r < rho, so each rho-reduction strictly decreases rho while never
taking it below rhoend.  The hypothesis on s states the properties of the
floating-point square root used on the middle branch: on the reachable
arguments (ratios in (16, 250]) it is at least 1 and less than its
argument, which holds for any faithfully-rounded sqrt. -/
theorem redrho_range (s : ℚ → ℚ) (rho rhoend : ℚ)
    (h1 : 0 < rhoend) (h2 : rhoend < rho)
    (hs : 16 < rho / rhoend → rho / rhoend ≤ 250 →
      1 ≤ s (rho / rhoend) ∧ s (rho / rhoend) < rho / rhoend) :
    rhoend ≤ redrho s rho rhoend ∧ redrho s rho rhoend < rho := by
  unfold redrho
  by_cases ha : 250 < rho / rhoend
  · have hgt : 250 * rhoend < rho := (lt_div_iff₀ h1).mp ha
    simp only [if_pos ha]
    constructor
    · linarith
    · linarith
  · simp only [if_neg ha]
    by_cases hb : rho / rhoend ≤ 16
    · simp only [if_pos hb]
      exact ⟨le_refl _, h2⟩
    · simp only [if_neg hb]
      push_neg at hb ha
      obtain ⟨hs1, hs2⟩ := hs hb ha
      constructor
      · nlinarith
      · have hlt : s (rho / rhoend) * rhoend < rho / rhoend * rhoend :=
          mul_lt_mul_of_pos_right hs2 h1
        have heq : rho / rhoend * rhoend = rho := div_mul_cancel₀ rho (ne_of_gt h1)
        linarith

/-- Witness for C8: concrete instance rho = 2, rhoend = 1 (the sqrt branch
is not reached, so the sqrt parameter is instantiated trivially). -/
theorem redrho_range_witness :
    (0 : ℚ) < 1 ∧ (1 : ℚ) < 2 ∧
      (1 ≤ redrho (fun _ => 0) 2 1 ∧ redrho (fun _ => 0) 2 1 < 2) :=
  ⟨by norm_num, by norm_num,
    redrho_range (fun _ => 0) 2 1 (by norm_num) (by norm_num)
      (by intro h; exfalso; norm_num at h)⟩

/-- FACTOR_ALPHA of cobylb.py line 215 (0.25, exact in binary). -/
def factor_alpha : EF := .val (mkRat 1 4)

/-- FACTOR_BETA of cobylb.py line 216 (2.1; modelled as the exact rational
21/10). -/
def factor_beta : EF := .val (mkRat 21 10)

/-- FACTOR_DELTA of cobylb.py line 217 (1.1). -/
def factor_delta : EF := .val (mkRat 11 10)

/-- FACTOR_GAMMA of cobylb.py line 218 (0.5, exact in binary). -/
def factor_gamma : EF := .val (mkRat 1 2)

/-- Embedding of BAD_TRSTEP (cobylb.py line 465):
`shortd or trfail or ratio <= 0 or jdrop_tr == None`. -/
def bad_trstep (shortd trfail : Bool) (ratio : EF) (jdrop_tr : Option Nat) : Bool :=
  shortd || trfail || EF.le ratio (.val 0) || jdrop_tr.isNone

/-- Embedding of IMPROVE_GEO (cobylb.py line 467). -/
def improve_geo_flag (shortd trfail : Bool) (ratio : EF) (jdrop_tr : Option Nat)
    (adequate_geo : Bool) : Bool :=
  bad_trstep shortd trfail ratio jdrop_tr && !adequate_geo

/-- Embedding of REDUCE_RHO (cobylb.py line 469). -/
def reduce_rho_flag (shortd trfail : Bool) (ratio : EF) (jdrop_tr : Option Nat)
    (adequate_geo : Bool) (delta dnorm rho : EF) : Bool :=
  bad_trstep shortd trfail ratio jdrop_tr && adequate_geo && EF.le (pyMax2 delta dnorm) rho

/-- C6 helper constants are defined later; C9: for every combination of
shortd, trfail, ratio, jdrop_tr, adequate_geo, delta, dnorm and rho, the
flags improve_geo and reduce_rho computed after the trust-region step
(cobylb.py lines 464-469) are never both true. -/
theorem improve_geo_reduce_rho_mutually_exclusive
    (shortd trfail : Bool) (ratio : EF) (jdrop_tr : Option Nat)
    (adequate_geo : Bool) (delta dnorm rho : EF) :
    (improve_geo_flag shortd trfail ratio jdrop_tr adequate_geo &&
      reduce_rho_flag shortd trfail ratio jdrop_tr adequate_geo delta dnorm rho) = false := by
  cases adequate_geo <;> simp [improve_geo_flag, reduce_rho_flag]

/-- Row-major matrix of doubles (a 2-d numpy array). -/
abbrev Mat : Type := List (List EF)

/-- Column j of a matrix. -/
def getCol (m : Mat) (j : Nat) : List EF := m.map (fun r => r.getD j .nan)

/-- Replace column j of a matrix by v. -/
def setCol (m : Mat) (j : Nat) (v : List EF) : Mat :=
  List.zipWith (fun r x => r.set j x) m v

/-- np.dot of two vectors: sum of products, accumulated left to right. -/
def dot (a b : List EF) : EF := sumEF (List.zipWith EF.mul a b)

/-- Matrix-vector product. -/
def matVec (m : Mat) (v : List EF) : List EF := m.map (fun r => dot r v)

/-- np.outer. -/
def outer (u v : List EF) : Mat := u.map (fun a => v.map (fun b => EF.mul a b))

/-- Elementwise matrix subtraction. -/
def matSub (a b : Mat) : Mat := List.zipWith (List.zipWith EF.sub) a b

/-- Elementwise matrix addition. -/
def matAdd (a b : Mat) : Mat := List.zipWith (List.zipWith EF.add) a b

/-- Number of columns of a row-major matrix. -/
def numCols (m : Mat) : Nat := (m.headD []).length

/-- Matrix product. -/
def matMul (a b : Mat) : Mat :=
  a.map (fun r => (List.range (numCols b)).map (fun k => dot r (getCol b k)))

/-- The first k columns of a matrix (`m[:, :k]`). -/
def takeCols (m : Mat) (k : Nat) : Mat := m.map (fun r => r.take k)

/-- np.sum(m, axis=0): column sums. -/
def colSums (m : Mat) : List EF :=
  (List.range (numCols m)).map (fun j => sumEF (getCol m j))

/-- np.eye(n). -/
def eyeEF (n : Nat) : Mat :=
  (List.range n).map (fun i => (List.range n).map (fun j => if i = j then EF.val 1 else EF.val 0))

/-- The conditioning error `np.max(abs(simi @ sim[:, :n] - np.eye(n)))` of
update.py lines 34 and 135 (np.max propagates NaN). -/
def erriOf (simi sim : Mat) (n : Nat) : EF :=
  npMaxList (List.join ((matSub (matMul simi (takeCols sim n)) (eyeEF n)).map
    (fun r => r.map EF.abs)))

/-- Swap entries i and j of a vector (`v[[i, j]] = v[[j, i]]`). -/
def listSwap (l : List EF) (i j : Nat) : List EF :=
  (l.set i (l.getD j .nan)).set j (l.getD i .nan)

/-- Swap columns i and j of a matrix (`m[:, [i, j]] = m[:, [j, i]]`). -/
def swapCols (m : Mat) (i j : Nat) : Mat :=
  m.map (fun r => (r.set i (r.getD j .nan)).set j (r.getD i .nan))

/-- Select the entries of l whose mask entry is true (numpy boolean
indexing `l[mask]`). -/
def maskSelect {α : Type} : List α → List Bool → List α
  | [], _ => []
  | _, [] => []
  | a :: as, b :: bs => if b then a :: maskSelect as bs else maskSelect as bs

/-- Subtract v[i] from the first k entries of row i, for every row
(`m[:, :k] -= np.tile(v, (k, 1)).T`). -/
def subFromFirstCols (m : Mat) (k : Nat) (v : List EF) : Mat :=
  List.zipWith (fun row x => row.enum.map (fun p => if p.1 < k then EF.sub p.2 x else p.2)) m v

/-- np.min over a (flattened) array: NaN propagating. -/
def npMinList : List EF → EF
  | [] => .nan
  | h :: t => t.foldl npMin2 h

/-- np.argmin: index of the first NaN if the array contains one (numpy
propagates NaN through argmin), otherwise the first index attaining the
minimum. -/
def npArgmin (l : List EF) : Nat :=
  match l.findIdx? EF.isnan with
  | some i => i
  | none => l.findIdx (fun x => EF.beq x (npMinList l))

/-- Embedding of `findpole` (update.py lines 58-74).  Note that the
cpen <= 0 tie-break computes `np.where(cval == min(cval[phi <= phimin]))[0][0]`,
the first index of the WHOLE cval array holding that minimum, which need
not satisfy `phi <= phimin` (numpy would raise an IndexError if no entry
matched; that situation cannot arise because the minimum is taken over a
sub-array of cval itself whenever the mask is nonempty, and the embedding
then returns the list length, which the caller's `jopt < n` guard treats
like the pole). -/
def findpole (cpen : EF) (cval fval : List EF) : Nat :=
  let jopt0 := fval.length - 1
  let phi := List.zipWith (fun f c => EF.add f (EF.mul cpen c)) fval cval
  let phimin := pyMinList phi
  let joptcandidate := npArgmin phi
  let jopt1 := if EF.lt (phi.getD joptcandidate .nan) (phi.getD jopt0 .nan) then joptcandidate
    else jopt0
  if EF.le cpen (.val 0) &&
      (List.zip cval phi).any (fun p => EF.lt p.1 (cval.getD jopt1 .nan) && EF.le p.2 phimin) then
    let target := pyMinList (maskSelect cval (phi.map (fun p => EF.le p phimin)))
    cval.findIdx (fun c => EF.beq c target)
  else jopt1

/-- Result of `updatepole`.  Besides the values of the Python return
statement, simA and simiA record the final contents of the caller's sim
and simi array objects: the function mutates them in place and the
"revert" on the damaging-rounding path only rebinds the local names to
the entry copies, so the caller's objects keep the mutations. -/
structure UpdatepoleResult where
  conmat : Mat
  cval : List EF
  fval : List EF
  sim : Mat
  simi : Mat
  info : Int
  simA : Mat
  simiA : Mat
deriving DecidableEq, Repr

/-- Embedding of `updatepole` (update.py lines 77-157).  The library call
np.linalg.inv is the parameter inv. -/
def updatepole (inv : Mat → Mat) (cpen : EF) (conmat : Mat) (cval fval : List EF)
    (sim simi : Mat) : UpdatepoleResult :=
  let n := sim.length
  let jopt := findpole cpen cval fval
  -- sim_old = sim.copy(); simi_old = simi.copy() (lines 113-114): genuine copies
  let simJopt := getCol sim jopt
  let sim1 :=
    if jopt < n then
      -- lines 121-124: sim[:, n] += sim[:, jopt]; sim_jopt = sim[:, jopt].copy();
      -- sim[:, jopt] = 0; sim[:, :n] -= tile(sim_jopt, (n, 1)).T
      let s1 := setCol sim n (List.zipWith EF.add (getCol sim n) simJopt)
      let s2 := setCol s1 jopt (List.replicate n (EF.val 0))
      subFromFirstCols s2 n simJopt
    else sim
  let simi1 :=
    if jopt < n then
      -- line 131: simi[jopt, :] = -np.sum(simi, axis=0)
      simi.set jopt ((colSums simi).map EF.neg)
    else simi
  let erri := erriOf simi1 sim1 n
  -- lines 137-142: attempt a full refactorization when erri > 0.1 or NaN
  let p :=
    if EF.lt (.val (mkRat 1 10)) erri || EF.isnan erri then
      let simi_test := inv (takeCols sim1 n)
      let erri_test := erriOf simi_test sim1 n
      if EF.lt erri_test erri || (EF.isnan erri && !EF.isnan erri_test) then
        (simi_test, erri_test)
      else (simi1, erri)
    else (simi1, erri)
  if EF.le p.2 (.val 1) then
    if jopt < n then
      { conmat := swapCols conmat jopt n, cval := listSwap cval jopt n,
        fval := listSwap fval jopt n, sim := sim1, simi := p.1, info := INFO_DEFAULT,
        simA := sim1, simiA := simi1 }
    else
      { conmat := conmat, cval := cval, fval := fval, sim := sim1, simi := p.1,
        info := INFO_DEFAULT, simA := sim1, simiA := simi1 }
  else
    -- lines 152-155: info = DAMAGING_ROUNDING; sim = sim_old; simi = simi_old.
    -- The returned arrays are the entry copies; the caller's objects keep
    -- the in-place updates (simA, simiA).
    { conmat := conmat, cval := cval, fval := fval, sim := sim, simi := simi,
      info := DAMAGING_ROUNDING, simA := sim1, simiA := simi1 }

/-- C6 (refuted; code bug): at cpen = 0 the findpole tie-break (update.py
line 73) picks the first index of the whole cval array attaining
`min(cval[phi <= phimin])`, which may lie outside the candidate set
`phi <= phimin`.  With fval = [1, 0, 0], cval = [2, 2, 4] it picks index 0
whose merit is 1 > 0; updatepole then swaps that vertex to the pole and
returns success (info = INFO_DEFAULT) with fval = [0, 0, 1] and
cval = [4, 2, 2]: the pole (index 2) has merit 1 + 0*2 = 1 while vertex 0
has merit 0 + 0*4 = 0, violating the claimed invariant. -/
theorem updatepole_cpen_zero_pole_not_merit_optimal :
    updatepole (fun m => m) (.val 0)
        [[.val 0, .val 0, .val 0]]
        [.val 2, .val 2, .val 4]
        [.val 1, .val 0, .val 0]
        [[.val 1, .val 0, .val 0], [.val 0, .val 1, .val 0]]
        [[.val 1, .val 0], [.val 0, .val 1]] =
      { conmat := [[.val 0, .val 0, .val 0]],
        cval := [.val 4, .val 2, .val 2],
        fval := [.val 0, .val 0, .val 1],
        sim := [[.val (-1), .val (-1), .val 1], [.val 0, .val 1, .val 0]],
        simi := [[.val (-1), .val (-1)], [.val 0, .val 1]],
        info := INFO_DEFAULT,
        simA := [[.val (-1), .val (-1), .val 1], [.val 0, .val 1, .val 0]],
        simiA := [[.val (-1), .val (-1)], [.val 0, .val 1]] } ∧
    EF.le (EF.add (.val 1) (EF.mul (.val 0) (.val 2)))
      (EF.add (.val 0) (EF.mul (.val 0) (.val 4))) = false := by
  decide

/-- A dynamically-typed Python value, used where the source returns tuples
whose component types differ between branches and where a tuple is
compared against an integer (cobylb.py line 565).  The tuples that occur
there are always 6-tuples, modelled by the 6-ary constructor tup6. -/
inductive PyObj where
  | int : Int → PyObj
  | vec : List EF → PyObj
  | mat : Mat → PyObj
  | tup6 : PyObj → PyObj → PyObj → PyObj → PyObj → PyObj → PyObj
deriving DecidableEq, Repr

/-- Python `==` on the values that occur at cobylb.py line 565: an int
equals an int with the same value; a tuple never equals an int (Python
returns False there, it does not raise). -/
def pyEq : PyObj → PyObj → Bool
  | .int a, .int b => decide (a = b)
  | _, _ => false

/-- The info component (position 5) of an updatexfc return tuple. -/
def retInfo (l : List PyObj) : Int :=
  match l.getD 5 (.int INFO_DEFAULT) with
  | .int i => i
  | _ => INFO_DEFAULT

/-- Result of `updatexfc`.  ret is the value of the Python return
statement (a 6-tuple); conmatA, cvalA, fvalA, simA, simiA are the final
contents of the caller's five array objects, which updatexfc mutates in
place (the numpy arrays are passed by reference). -/
structure UpdatexfcResult where
  ret : List PyObj
  conmatA : Mat
  cvalA : List EF
  fvalA : List EF
  simA : Mat
  simiA : Mat
deriving DecidableEq, Repr

/-- Embedding of `updatexfc` (update.py lines 5-56).  The library call
np.linalg.inv is the parameter inv.  Care points, mirrored from the
source: (1) the jdrop = None branch at line 15 returns the tuple in the
order conmat, cval, fval, sim, simi, info, while the normal return at
line 56 uses the order sim, simi, fval, conmat, cval, info; (2) lines
17-18 bind sim_old and simi_old WITHOUT copying, so they alias the arrays
that the in-place updates below mutate, and the "restore" at lines 52-53
therefore restores nothing. -/
def updatexfc (inv : Mat → Mat) (jdrop : Option Nat) (constr : List EF) (cpen cstrv : EF)
    (d : List EF) (f : EF) (conmat : Mat) (cval fval : List EF) (sim simi : Mat) :
    UpdatexfcResult :=
  let n := sim.length
  match jdrop with
  | none =>
      -- line 15: `return conmat, cval, fval, sim, simi, INFO_DEFAULT`
      { ret := [.mat conmat, .vec cval, .vec fval, .mat sim, .mat simi, .int INFO_DEFAULT],
        conmatA := conmat, cvalA := cval, fvalA := fval, simA := sim, simiA := simi }
  | some j =>
      -- lines 17-18: sim_old = sim; simi_old = simi (aliases, not copies)
      let p1 :=
        if j < n then
          -- lines 19-23
          let s1 := setCol sim j d
          let simiJ := simi.getD j []
          let simi_jdrop := simiJ.map (fun x => EF.div x (dot simiJ d))
          let m1 := matSub simi (outer (matVec simi d) simi_jdrop)
          (s1, m1.set j simi_jdrop)
        else
          -- lines 24-29: jdrop == num_vars
          let s1 := setCol sim n (List.zipWith EF.add (getCol sim n) d)
          let s2 := subFromFirstCols s1 n d
          let simid := matVec simi d
          let sum_simi := colSums simi
          let denom := EF.sub (.val 1) (sumEF simid)
          (s2, matAdd simi (outer simid (sum_simi.map (fun s => EF.div s denom))))
      let sim1 := p1.1
      let simi1 := p1.2
      let erri := erriOf simi1 sim1 n
      -- lines 33-40: itol = 1; attempt a full refactorization when
      -- erri > 0.1 * itol or NaN.  The Bool records whether the name simi
      -- was rebound to the fresh array inv(...) (needed for aliasing).
      let p2 :=
        if EF.lt (.val (mkRat 1 10)) erri || EF.isnan erri then
          let simi_test := inv (takeCols sim1 n)
          let erri_test := erriOf simi_test sim1 n
          if EF.lt erri_test erri || (EF.isnan erri && !EF.isnan erri_test) then
            (simi_test, erri_test, true)
          else (simi1, erri, false)
        else (simi1, erri, false)
      if EF.le p2.2.1 (.val 1) then
        -- lines 44-49: write fval, conmat, cval in place, then call
        -- updatepole and (line 49) rebind all six names to its return
        let fval1 := fval.set j f
        let conmat1 := setCol conmat j constr
        let cval1 := cval.set j cstrv
        let up := updatepole inv cpen conmat1 cval1 fval1 sim1 p2.1
        -- line 56: `return sim, simi, fval, conmat, cval, info`
        { ret := [.mat up.sim, .mat up.simi, .vec up.fval, .mat up.conmat, .vec up.cval,
            .int up.info],
          conmatA := up.conmat, cvalA := up.cval, fvalA := up.fval,
          simA := up.simA,
          -- the caller's simi object is further mutated by updatepole only
          -- when updatexfc did not rebind simi to the fresh inv(...) array
          simiA := if p2.2.2 then simi1 else up.simiA }
      else
        -- lines 50-53: info = DAMAGING_ROUNDING; sim = sim_old; simi =
        -- simi_old.  sim_old and simi_old alias the mutated arrays, so the
        -- returned sim and simi are the updated sim1 and simi1, not the
        -- entry values.
        { ret := [.mat sim1, .mat simi1, .vec fval, .mat conmat, .vec cval,
            .int DAMAGING_ROUNDING],
          conmatA := conmat, cvalA := cval, fvalA := fval, simA := sim1, simiA := simi1 }

/-- C2 (refuted; code bug): with jdrop = None, updatexfc returns the input
arrays unchanged with the default info, but in the tuple order conmat,
cval, fval, sim, simi, info (update.py line 15) instead of the order sim,
simi, fval, conmat, cval, info used by its normal return (line 56) and by
the unpacking caller (cobylb.py line 442).  At a state where conmat and
sim differ the two tuples differ. -/
theorem updatexfc_jdrop_none_returns_swapped_order :
    (updatexfc (fun m => m) none [.val 9] (.val 1) (.val 0) [.val 0, .val 0] (.val 0)
        [[.val 5, .val 5, .val 5]]
        [.val 1, .val 1, .val 1]
        [.val 2, .val 2, .val 2]
        [[.val 1, .val 0, .val 0], [.val 0, .val 1, .val 0]]
        [[.val 1, .val 0], [.val 0, .val 1]]).ret =
      [.mat [[.val 5, .val 5, .val 5]], .vec [.val 1, .val 1, .val 1],
        .vec [.val 2, .val 2, .val 2],
        .mat [[.val 1, .val 0, .val 0], [.val 0, .val 1, .val 0]],
        .mat [[.val 1, .val 0], [.val 0, .val 1]], .int INFO_DEFAULT] ∧
    (updatexfc (fun m => m) none [.val 9] (.val 1) (.val 0) [.val 0, .val 0] (.val 0)
        [[.val 5, .val 5, .val 5]]
        [.val 1, .val 1, .val 1]
        [.val 2, .val 2, .val 2]
        [[.val 1, .val 0, .val 0], [.val 0, .val 1, .val 0]]
        [[.val 1, .val 0], [.val 0, .val 1]]).ret ≠
      [.mat [[.val 1, .val 0, .val 0], [.val 0, .val 1, .val 0]],
        .mat [[.val 1, .val 0], [.val 0, .val 1]],
        .vec [.val 2, .val 2, .val 2], .mat [[.val 5, .val 5, .val 5]],
        .vec [.val 1, .val 1, .val 1], .int INFO_DEFAULT] := by
  decide

/-- C3 (refuted; code bug): update.py lines 17-18 save sim_old = sim and
simi_old = simi without .copy(), so when the conditioning check fails the
restore at lines 52-53 is a no-op and updatexfc returns the half-updated
matrices together with info = DAMAGING_ROUNDING.  Concretely, from
sim = [[1,0,0],[0,1,0]], simi = [[1,9/10],[0,1]] (conditioning error 0.9,
within the at-rest tolerance itol = 1), step d = [1/10,-1/10] into vertex
0 drives the updated conditioning error to 90; with a refactorization
returning the inaccurate inverse 10*I (error 9 > itol) the update is
rejected, yet the returned sim is the overwritten [[1/10,0,0],[-1/10,1,0]]
and the returned simi is the rank-1-updated [[100,90],[10,10]], not the
entry matrices. -/
theorem updatexfc_damaging_rounding_not_reverted :
    (updatexfc (fun _ => [[.val 10, .val 0], [.val 0, .val 10]]) (some 0)
        [.val 0] (.val 1) (.val 0) [.val (mkRat 1 10), .val (mkRat (-1) 10)] (.val 0)
        [[.val 3, .val 3, .val 3]]
        [.val 1, .val 1, .val 1]
        [.val 5, .val 5, .val 5]
        [[.val 1, .val 0, .val 0], [.val 0, .val 1, .val 0]]
        [[.val 1, .val (mkRat 9 10)], [.val 0, .val 1]]).ret =
      [.mat [[.val (mkRat 1 10), .val 0, .val 0], [.val (mkRat (-1) 10), .val 1, .val 0]],
        .mat [[.val 100, .val 90], [.val 10, .val 10]],
        .vec [.val 5, .val 5, .val 5], .mat [[.val 3, .val 3, .val 3]],
        .vec [.val 1, .val 1, .val 1], .int DAMAGING_ROUNDING] ∧
    (.mat [[.val (mkRat 1 10), .val 0, .val 0], [.val (mkRat (-1) 10), .val 1, .val 0]] :
        PyObj) ≠
      .mat [[.val 1, .val 0, .val 0], [.val 0, .val 1, .val 0]] ∧
    (.mat [[.val 100, .val 90], [.val 10, .val 10]] : PyObj) ≠
      .mat [[.val 1, .val (mkRat 9 10)], [.val 0, .val 1]] := by
  decide

/-- One filter entry: the j-th entries of the parallel arrays xfilt,
ffilt, cfilt, confilt.  The source keeps five parallel arrays of capacity
maxfilt plus the current length nfilt; the embedding keeps a list of
records of length nfilt, with the capacity maxfilt a parameter. -/
structure FiltEntry where
  x : List EF
  f : EF
  c : EF
  con : List EF
deriving DecidableEq, Repr

/-- The predicate of selectx.py line 67: stored entry e is better than the
candidate (f, cstrv). -/
def entryBeatsCand (cstrv ctol f : EF) (e : FiltEntry) : Bool :=
  isbetter e.f e.c f cstrv ctol

/-- The keep predicate of selectx.py line 71: the candidate (f, cstrv) is
NOT better than stored entry e. -/
def keepPred (cstrv ctol f : EF) (e : FiltEntry) : Bool :=
  !isbetter f cstrv e.f e.c ctol

/-- The eviction index of `savefilt` when the filter is full (selectx.py
lines 75-102): the merit phi = ffilt + cweight * max(cfilt - ctol, 0)
(with the degenerate cweight <= 0 and cweight = +inf variants), then the
chain phimax, cref, fref, and `kworst = np.where(cfilt == max(cfilt[ffilt
<= fref]))[0][0]`.  When no entry of cfilt matches the target value numpy
would raise an IndexError; the embedding returns index 0 there, through
the source's own security guard `if kworst < 0 or kworst >= len(keep):
kworst = 0`. -/
def savefiltKworst (ctol cweight : EF) (filt : List FiltEntry) (keepLen : Nat) : Nat :=
  let ffilt := filt.map (fun e => e.f)
  let cfilt := filt.map (fun e => e.c)
  let cfilt_shifted := cfilt.map (fun c => npMax2 (EF.sub c ctol) (.val 0))
  let phi :=
    if EF.le cweight (.val 0) then ffilt
    else if EF.isposinf cweight then cfilt_shifted
    else
      List.zipWith (fun fe cs =>
        EF.add (nanToNum (EF.neg REALMAX) (npMax2 fe (EF.neg REALMAX)))
          (EF.mul cweight cs)) ffilt cfilt_shifted
  let phimax := pyMaxList phi
  let cref := pyMaxList (maskSelect cfilt_shifted (phi.map (fun p => EF.le phimax p)))
  let fref := pyMaxList (maskSelect ffilt (cfilt_shifted.map (fun cs => EF.le cref cs)))
  let target := pyMaxList (maskSelect cfilt (ffilt.map (fun fe => EF.le fe fref)))
  let kworst0 := cfilt.findIdx (fun c => EF.beq c target)
  if keepLen ≤ kworst0 then 0 else kworst0

/-- The keep mask of `savefilt` (selectx.py lines 71-102): drop the
entries the candidate is better than; if that keeps the full maxfilt
entries, additionally drop the eviction index. -/
def savefiltKeep (cstrv ctol cweight f : EF) (maxfilt : Nat)
    (filt : List FiltEntry) : List Bool :=
  if (filt.map (keepPred cstrv ctol f)).count true = maxfilt then
    (filt.map (keepPred cstrv ctol f)).set
      (savefiltKworst ctol cweight filt (filt.map (keepPred cstrv ctol f)).length) false
  else filt.map (keepPred cstrv ctol f)

/-- Embedding of `savefilt` (selectx.py lines 40-122).  If some stored
entry is better than the candidate (line 67) the filter is returned
unchanged; otherwise the entries selected by the keep mask survive and
the candidate is appended (lines 104-120). -/
def savefilt (cstrv ctol cweight f : EF) (x : List EF) (maxfilt : Nat)
    (filt : List FiltEntry) (constr : List EF) : List FiltEntry :=
  if filt.any (entryBeatsCand cstrv ctol f) then filt
  else
    maskSelect filt (savefiltKeep cstrv ctol cweight f maxfilt filt) ++
      [{ x := x, f := f, c := cstrv, con := constr }]

/-- The filter invariant of the spec (sections 3 and 4.3): no entry is
strictly better than another entry under isbetter, in either order. -/
def Nondominated (ctol : EF) (filt : List FiltEntry) : Prop :=
  filt.Pairwise (fun a b =>
    isbetter a.f a.c b.f b.c ctol = false ∧ isbetter b.f b.c a.f a.c ctol = false)

lemma maskSelect_sublist {α : Type} : ∀ (l : List α) (m : List Bool),
    (maskSelect l m).Sublist l := by
  intro l
  induction l with
  | nil => intro m; cases m <;> simp [maskSelect]
  | cons a as ih =>
      intro m
      cases m with
      | nil => simp [maskSelect]
      | cons b bs =>
          cases b
          · simpa [maskSelect] using ((ih bs).cons a)
          · simpa [maskSelect] using ((ih bs).cons₂ a)

lemma mem_maskSelect_map {α : Type} (q : α → Bool) :
    ∀ (l : List α) (e : α), e ∈ maskSelect l (l.map q) → q e = true := by
  intro l
  induction l with
  | nil => simp [maskSelect]
  | cons a as ih =>
      intro e he
      by_cases hq : q a
      · simp only [List.map_cons, maskSelect, hq, if_true] at he
        rcases List.mem_cons.mp he with rfl | hmem
        · exact hq
        · exact ih e hmem
      · simp only [List.map_cons, maskSelect, hq, if_false] at he
        exact ih e he

lemma maskSelect_set_false_sublist {α : Type} :
    ∀ (l : List α) (m : List Bool) (k : Nat),
      (maskSelect l (m.set k false)).Sublist (maskSelect l m) := by
  intro l
  induction l with
  | nil => intro m k; cases m <;> simp [maskSelect]
  | cons a as ih =>
      intro m k
      cases m with
      | nil => simp [maskSelect]
      | cons b bs =>
          cases k with
          | zero =>
              cases b
              · simp [maskSelect]
              · simpa [maskSelect] using ((List.Sublist.refl (maskSelect as bs)).cons a)
          | succ k2 =>
              cases b
              · simpa [maskSelect] using ih bs k2
              · simpa [maskSelect] using ((ih bs k2).cons₂ a)

lemma mem_maskSelect_map_set_false {α : Type} (q : α → Bool) (l : List α) (k : Nat) (e : α)
    (he : e ∈ maskSelect l ((l.map q).set k false)) : q e = true :=
  mem_maskSelect_map q l e ((maskSelect_set_false_sublist l (l.map q) k).subset he)

lemma savefiltKeep_eq_or (cstrv ctol cweight f : EF) (maxfilt : Nat)
    (filt : List FiltEntry) :
    (savefiltKeep cstrv ctol cweight f maxfilt filt =
      filt.map (keepPred cstrv ctol f)) ∨
    ∃ k, savefiltKeep cstrv ctol cweight f maxfilt filt =
      (filt.map (keepPred cstrv ctol f)).set k false := by
  unfold savefiltKeep
  split
  · exact Or.inr ⟨_, rfl⟩
  · exact Or.inl rfl

lemma mem_savefiltKeep (cstrv ctol cweight f : EF) (maxfilt : Nat)
    (filt : List FiltEntry) :
    ∀ e ∈ maskSelect filt (savefiltKeep cstrv ctol cweight f maxfilt filt),
      isbetter f cstrv e.f e.c ctol = false := by
  rcases savefiltKeep_eq_or cstrv ctol cweight f maxfilt filt with h | ⟨k, h⟩
  · rw [h]
    intro e he
    have h2 := mem_maskSelect_map (keepPred cstrv ctol f) filt e he
    simpa only [keepPred, Bool.not_eq_true'] using h2
  · rw [h]
    intro e he
    have h2 := mem_maskSelect_map_set_false (keepPred cstrv ctol f) filt k e he
    simpa only [keepPred, Bool.not_eq_true'] using h2

lemma nondominated_mask_append (ctol : EF) (filt : List FiltEntry) (mask : List Bool)
    (cand : FiltEntry)
    (h : Nondominated ctol filt)
    (h1 : ∀ e ∈ filt, isbetter e.f e.c cand.f cand.c ctol = false)
    (h2 : ∀ e ∈ maskSelect filt mask, isbetter cand.f cand.c e.f e.c ctol = false) :
    Nondominated ctol (maskSelect filt mask ++ [cand]) := by
  have hsub : (maskSelect filt mask).Sublist filt := maskSelect_sublist filt mask
  refine List.pairwise_append.mpr ⟨h.sublist hsub, List.pairwise_singleton _ _, ?_⟩
  intro a ha b hb
  rcases List.mem_singleton.mp hb with rfl
  exact ⟨h1 a (hsub.subset ha), h2 a ha⟩

/-- C7: savefilt preserves the filter's mutual non-domination invariant:
if no pair of stored entries dominates one another under isbetter, the
same holds for the filter savefilt returns.  (This holds structurally: the
kept entries form a sublist of the old filter, the early return at
selectx.py line 67 guarantees no kept entry dominates the candidate, and
the keep mask of line 71 guarantees the candidate dominates no kept
entry.) -/
theorem savefilt_preserves_nondominated
    (cstrv ctol cweight f : EF) (x : List EF) (maxfilt : Nat)
    (filt : List FiltEntry) (constr : List EF)
    (h : Nondominated ctol filt) :
    Nondominated ctol (savefilt cstrv ctol cweight f x maxfilt filt constr) := by
  unfold savefilt
  by_cases hany : filt.any (entryBeatsCand cstrv ctol f)
  · simpa [hany] using h
  · have hanyf : filt.any (entryBeatsCand cstrv ctol f) = false :=
      Bool.of_not_eq_true hany
    have hnone : ∀ e ∈ filt, isbetter e.f e.c f cstrv ctol = false := by
      intro e he
      have h3 := List.any_eq_false.mp hanyf e he
      simpa only [entryBeatsCand, Bool.not_eq_true] using h3
    simp only [hanyf, Bool.false_eq_true, if_false]
    exact nondominated_mask_append ctol filt _ _ h hnone
      (mem_savefiltKeep cstrv ctol cweight f maxfilt filt)

/-- Witness for C7 at a concrete input: the empty filter is mutually
non-dominated and stays so after inserting a candidate. -/
theorem savefilt_preserves_nondominated_witness :
    Nondominated (.val 0) ([] : List FiltEntry) ∧
      Nondominated (.val 0)
        (savefilt (.val 0) (.val 0) (.val 1) (.val 0) [] 3 [] []) :=
  ⟨by simp [Nondominated],
    savefilt_preserves_nondominated (.val 0) (.val 0) (.val 1) (.val 0) [] 3 [] []
      (by simp [Nondominated])⟩

/-- Embedding of `evaluate` (evaluate.py lines 23-36): moderate x, call
the user function, moderate the outputs, and compute the violation
`max([*-constr, 0])` with the Python builtin max.  The assert that x is
NaN-free passes on every input considered here. -/
def evaluateE (calcfc : List EF → EF × List EF) (x : List EF) : EF × List EF × EF :=
  let fc := calcfc (moderatex x)
  let f := moderatef fc.1
  let constr := moderatec fc.2
  (f, constr, pyMaxList (constr.map EF.neg ++ [.val 0]))

/-- Set the first cnt entries of a row to v (`sim[j, :j+1] = -rhobeg`). -/
def setPrefix (r : List EF) (cnt : Nat) (v : EF) : List EF :=
  r.enum.map (fun p => if p.1 < cnt then v else p.2)

/-- The mutable state of the initialization loop of `initxfc` in cobylb.py
(lines 95-135): the simplex, the evaluated flags, and the fval, conmat,
cval arrays that the loop writes in place. -/
structure InitState where
  sim : Mat
  evaluated : List Bool
  fval : List EF
  conmat : Mat
  cval : List EF
deriving DecidableEq, Repr

/-- One iteration of the initialization loop of `initxfc` in cobylb.py
(lines 95-135) at loop counter k.  The termination check of
initialize.py is present in cobylb.py only as a commented-out block
(lines 122-126), so no exit test occurs here. -/
def initxfcStep (calcfc : List EF → EF × List EF) (f0 : EF) (constr0 : List EF)
    (rhobeg : EF) (n : Nat) (st : InitState) (k : Nat) : InitState :=
  let xp := getCol st.sim n
  let p :=
    if k = 0 then
      let f := moderatef f0
      let constr := moderatec constr0
      let cstrv := pyMax2 (pyMaxList (constr.map EF.neg)) (.val 0)
      (n, f, constr, cstrv, xp)
    else
      let j := k - 1
      let x := xp.set j (EF.add (xp.getD j .nan) rhobeg)
      let r := evaluateE calcfc x
      (j, r.1, r.2.1, r.2.2, x)
  let j := p.1
  let f := p.2.1
  let constr := p.2.2.1
  let cstrv := p.2.2.2.1
  let x := p.2.2.2.2
  let evaluated := st.evaluated.set j true
  let fval := st.fval.set j f
  let conmat := setCol st.conmat j constr
  let cval := st.cval.set j cstrv
  -- cobylb.py lines 122-126 (the `checkexit` block) are commented out in
  -- the source: no termination condition is checked here.
  if j < n && EF.lt (fval.getD j .nan) (fval.getD n .nan) then
    -- lines 130-135: swap the new vertex with the optimal vertex
    let s1 := setCol st.sim n x
    { sim := s1.set j (setPrefix (s1.getD j []) (j + 1) (EF.neg rhobeg)),
      evaluated := evaluated, fval := listSwap fval j n,
      conmat := swapCols conmat j n, cval := listSwap cval j n }
  else
    { sim := st.sim, evaluated := evaluated, fval := fval, conmat := conmat, cval := cval }

/-- Result of `initxfc`: the values of the Python return statement
(evaluated, sim, simi, nf, info) together with the final contents of the
caller's fval, conmat, cval arrays (mutated in place). -/
structure InitxfcResult where
  evaluated : List Bool
  sim : Mat
  simi : Mat
  nf : Nat
  info : Int
  fvalA : List EF
  conmatA : Mat
  cvalA : List EF
deriving DecidableEq, Repr

/-- Embedding of `initxfc` as defined in cobylb.py lines 72-143 (the
version cobylb actually calls at line 231; initialize.py holds a separate
variant with an active termination check, which cobylb does not import).
info is initialized to INFO_DEFAULT at line 83 and never reassigned,
because the per-evaluation exit check is commented out (lines 122-126);
the loop always performs all n+1 evaluations.  np.linalg.inv is the
parameter inv; when not all vertices are evaluated the Python simi would
be unbound, modelled by the empty matrix (unreachable, since the loop
never breaks). -/
def initxfc (inv : Mat → Mat) (calcfc : List EF → EF × List EF) (iprint : Int)
    (maxfun : Nat) (constr0 : List EF) (ctol : EF) (f0 ftarget rhobeg : EF)
    (x0 : List EF) (conmat : Mat) (cval fval : List EF) : InitxfcResult :=
  let n := x0.length
  -- lines 86-87: sim = np.eye(n, n+1) * rhobeg; sim[:, -1] = x0
  let simEye := (List.range n).map (fun i => (List.range (n + 1)).map
    (fun j => EF.mul (.val (if i = j then 1 else 0)) rhobeg))
  let sim0 := setCol simEye n x0
  let st0 : InitState :=
    { sim := sim0, evaluated := List.replicate (n + 1) false,
      fval := fval, conmat := conmat, cval := cval }
  let st := (List.range (n + 1)).foldl (initxfcStep calcfc f0 constr0 rhobeg n) st0
  let nf := st.evaluated.count true
  let simi := if st.evaluated.all (fun b => b) then inv (takeCols st.sim n) else []
  { evaluated := st.evaluated, sim := st.sim, simi := simi, nf := nf,
    info := INFO_DEFAULT, fvalA := st.fval, conmatA := st.conmat, cvalA := st.cval }

/-- C5 (refuted; code bug): the initializer that cobylb uses (the initxfc
of cobylb.py, whose exit check at lines 122-126 is commented out) performs
all n+1 initial evaluations and reports no exit code, for every maxfun.
Concretely with n = 2 and maxfun = 1 it makes 3 evaluations (2 calls of
calcfc, on top of the f0-based one) and returns info = INFO_DEFAULT, where
the claim requires at most 1 call of calcfc and info = MAXFUN_REACHED.
(The separate initxfc of initialize.py does run checkbreak_con after each
evaluation, but cobylb does not call it.) -/
theorem initxfc_ignores_maxfun :
    (initxfc (fun m => m) (fun _ => (.val 0, [.val 0])) 0 1 [.val 0] (.val 0)
        (.val 0) (.val 0) (.val 1) [.val 0, .val 0]
        [[.val (-FLOATMAX), .val (-FLOATMAX), .val (-FLOATMAX)]]
        [.val FLOATMAX, .val FLOATMAX, .val FLOATMAX]
        [.val FLOATMAX, .val FLOATMAX, .val FLOATMAX]).nf = 3 ∧
    (initxfc (fun m => m) (fun _ => (.val 0, [.val 0])) 0 1 [.val 0] (.val 0)
        (.val 0) (.val 0) (.val 1) [.val 0, .val 0]
        [[.val (-FLOATMAX), .val (-FLOATMAX), .val (-FLOATMAX)]]
        [.val FLOATMAX, .val FLOATMAX, .val FLOATMAX]
        [.val FLOATMAX, .val FLOATMAX, .val FLOATMAX]).info = INFO_DEFAULT ∧
    INFO_DEFAULT ≠ MAXFUN_REACHED := by
  decide

/-- Embedding of `checkbreak` (cobylb.py lines 50-70).  The source assigns
info sequentially, each later condition overriding the earlier ones; the
nested conditionals below test them in reverse order, which yields the
same result. -/
def checkbreak (maxfun nf : Nat) (cstrv ctol f ftarget : EF) (x : List EF) : Int :=
  if maxfun ≤ nf then MAXFUN_REACHED
  else if EF.le cstrv ctol && EF.le f ftarget then FTARGET_ACHIEVED
  else if EF.isnan f || EF.isposinf f || EF.isnan cstrv || EF.isposinf cstrv then NAN_INF_F
  else if x.any EF.isnan || x.any EF.isinf then NAN_INF_X
  else INFO_DEFAULT

lemma checkbreak_ne_damaging (maxfun nf : Nat) (cstrv ctol f ftarget : EF)
    (x : List EF) : checkbreak maxfun nf cstrv ctol f ftarget x ≠ DAMAGING_ROUNDING := by
  unfold checkbreak
  split
  · decide
  · split
    · decide
    · split
      · decide
      · split
        · decide
        · decide

/-- Result of the improve-geo block of cobylb (lines 523-573): the state
seen by the rest of the loop, whether the block executed a break, and
(instrumentation used to state claim C1) the info component of the tuple
that updatexfc returned at line 564 — the source binds that whole tuple
to subinfo, so the component itself is never inspected there. -/
structure GeoRes where
  conmat : Mat
  cval : List EF
  fval : List EF
  sim : Mat
  simi : Mat
  filt : List FiltEntry
  nf : Nat
  info : Int
  broke : Bool
  xfcInfo : Int

/-- The body of the improve-geo block once a vertex jdrop_geo has been
chosen (cobylb.py lines 548-573).  Line 564 reads
`subinfo = updatexfc(jdrop_geo, constr, cpen, cstrv, d, f, conmat, cval,
fval, sim, simi)`: the single name subinfo receives the WHOLE 6-tuple, so
the comparison `subinfo == DAMAGING_ROUNDING` at line 565 compares a
tuple with an integer and is always False; the updated arrays that
updatexfc returned are discarded, and only its in-place mutations of the
caller's arrays survive. -/
def geoBranchCore (inv : Mat → Mat) (calcfc : List EF → EF × List EF)
    (geostepFn : Nat → EF → Mat → List EF → EF → List EF → EF → Mat → List EF)
    (jdrop_geo : Nat) (delta cpen ctol cweight ftarget : EF)
    (maxfun maxfilt nf : Nat)
    (conmat : Mat) (cval fval : List EF) (sim simi : Mat)
    (filt : List FiltEntry) (info : Int) : GeoRes :=
  let d := geostepFn jdrop_geo cpen conmat cval delta fval factor_gamma simi
  let x := List.zipWith EF.add (getCol sim sim.length) d
  let r := evaluateE calcfc x
  let nf1 := nf + 1
  let filt1 := savefilt r.2.2 ctol cweight r.1 x maxfilt filt r.2.1
  let xr := updatexfc inv (some jdrop_geo) r.2.1 cpen r.2.2 d r.1 conmat cval fval sim simi
  -- line 564: subinfo is bound to the whole return tuple of updatexfc
  let subinfo : PyObj := .tup6 (xr.ret.getD 0 (.int 0)) (xr.ret.getD 1 (.int 0))
    (xr.ret.getD 2 (.int 0)) (xr.ret.getD 3 (.int 0)) (xr.ret.getD 4 (.int 0))
    (xr.ret.getD 5 (.int 0))
  -- the caller's arrays keep updatexfc's in-place updates even though the
  -- returned tuple is discarded
  if pyEq subinfo (.int DAMAGING_ROUNDING) then
    -- line 565: in Python a tuple never equals an int, so this break is
    -- unreachable
    { conmat := xr.conmatA, cval := xr.cvalA, fval := xr.fvalA, sim := xr.simA,
      simi := xr.simiA, filt := filt1, nf := nf1, info := DAMAGING_ROUNDING,
      broke := true, xfcInfo := retInfo xr.ret }
  else
    let subinfo2 := checkbreak maxfun nf1 r.2.2 ctol r.1 ftarget x
    if subinfo2 ≠ INFO_DEFAULT then
      { conmat := xr.conmatA, cval := xr.cvalA, fval := xr.fvalA, sim := xr.simA,
        simi := xr.simiA, filt := filt1, nf := nf1, info := subinfo2,
        broke := true, xfcInfo := retInfo xr.ret }
    else
      { conmat := xr.conmatA, cval := xr.cvalA, fval := xr.fvalA, sim := xr.simA,
        simi := xr.simiA, filt := filt1, nf := nf1, info := info,
        broke := false, xfcInfo := retInfo xr.ret }

/-- The improve-geo block of the cobylb main loop (cobylb.py lines
523-573).  assess_geo, setdrop_geo and geostep live in geometry.py, which
is not among the provided sources; they are abstracted as the function
parameters assessGeoFn, setdropGeoFn and geostepFn (the claim under study
holds for every choice of them). -/
def improveGeoBranch (inv : Mat → Mat) (calcfc : List EF → EF × List EF)
    (assessGeoFn : EF → EF → EF → Mat → Mat → Bool)
    (setdropGeoFn : EF → EF → EF → Mat → Mat → Option Nat)
    (geostepFn : Nat → EF → Mat → List EF → EF → List EF → EF → Mat → List EF)
    (improve_geo : Bool) (delta cpen ctol cweight ftarget : EF)
    (maxfun maxfilt nf : Nat)
    (conmat : Mat) (cval fval : List EF) (sim simi : Mat)
    (filt : List FiltEntry) (info : Int) : GeoRes :=
  if improve_geo && !(assessGeoFn delta factor_alpha factor_beta sim simi) then
    match setdropGeoFn delta factor_alpha factor_beta sim simi with
    | none =>
        -- lines 539-541: jdrop_geo is None; break with DAMAGING_ROUNDING
        { conmat := conmat, cval := cval, fval := fval, sim := sim, simi := simi,
          filt := filt, nf := nf, info := DAMAGING_ROUNDING, broke := true,
          xfcInfo := INFO_DEFAULT }
    | some jdrop_geo =>
        geoBranchCore inv calcfc geostepFn jdrop_geo delta cpen ctol cweight ftarget
          maxfun maxfilt nf conmat cval fval sim simi filt info
  else
    { conmat := conmat, cval := cval, fval := fval, sim := sim, simi := simi,
      filt := filt, nf := nf, info := info, broke := false, xfcInfo := INFO_DEFAULT }

lemma pyEq_tup6_int (a b c d e f : PyObj) (z : Int) :
    pyEq (.tup6 a b c d e f) (.int z) = false := rfl

lemma geoBranchCore_no_damaging_break (inv : Mat → Mat)
    (calcfc : List EF → EF × List EF)
    (geostepFn : Nat → EF → Mat → List EF → EF → List EF → EF → Mat → List EF)
    (jdrop_geo : Nat) (delta cpen ctol cweight ftarget : EF)
    (maxfun maxfilt nf : Nat)
    (conmat : Mat) (cval fval : List EF) (sim simi : Mat)
    (filt : List FiltEntry) (info : Int) (hinfo : info ≠ DAMAGING_ROUNDING) :
    ¬((geoBranchCore inv calcfc geostepFn jdrop_geo delta cpen ctol cweight ftarget
        maxfun maxfilt nf conmat cval fval sim simi filt info).broke = true ∧
      (geoBranchCore inv calcfc geostepFn jdrop_geo delta cpen ctol cweight ftarget
        maxfun maxfilt nf conmat cval fval sim simi filt info).info = DAMAGING_ROUNDING) := by
  unfold geoBranchCore
  simp only [pyEq_tup6_int, Bool.false_eq_true, if_false]
  split
  · intro hc
    exact checkbreak_ne_damaging _ _ _ _ _ _ _ hc.2
  · intro hc
    exact hinfo hc.2

/-- C1 (refuted; code bug): in the improve-geo block, even when the
updatexfc call of cobylb.py line 564 reports DAMAGING_ROUNDING (the info
component of its return tuple, recorded here as xfcInfo), the loop does
NOT terminate with info = DAMAGING_ROUNDING: line 564 binds the whole
6-tuple to subinfo, so the check `subinfo == DAMAGING_ROUNDING` at line
565 compares a tuple with an integer and never fires, and the updated
simplex data returned by updatexfc is discarded.  The hypothesis
xfcInfo = DAMAGING_ROUNDING also ensures the geometry step was actually
taken (on the other paths xfcInfo is INFO_DEFAULT), and the incoming info
is the loop's MAXTR_REACHED preset (cobylb.py line 312). -/
theorem geo_branch_ignores_updatexfc_damaging (inv : Mat → Mat)
    (calcfc : List EF → EF × List EF)
    (assessGeoFn : EF → EF → EF → Mat → Mat → Bool)
    (setdropGeoFn : EF → EF → EF → Mat → Mat → Option Nat)
    (geostepFn : Nat → EF → Mat → List EF → EF → List EF → EF → Mat → List EF)
    (improve_geo : Bool) (delta cpen ctol cweight ftarget : EF)
    (maxfun maxfilt nf : Nat)
    (conmat : Mat) (cval fval : List EF) (sim simi : Mat)
    (filt : List FiltEntry)
    (hx : (improveGeoBranch inv calcfc assessGeoFn setdropGeoFn geostepFn improve_geo
        delta cpen ctol cweight ftarget maxfun maxfilt nf conmat cval fval sim simi
        filt MAXTR_REACHED).xfcInfo = DAMAGING_ROUNDING) :
    ¬((improveGeoBranch inv calcfc assessGeoFn setdropGeoFn geostepFn improve_geo
        delta cpen ctol cweight ftarget maxfun maxfilt nf conmat cval fval sim simi
        filt MAXTR_REACHED).broke = true ∧
      (improveGeoBranch inv calcfc assessGeoFn setdropGeoFn geostepFn improve_geo
        delta cpen ctol cweight ftarget maxfun maxfilt nf conmat cval fval sim simi
        filt MAXTR_REACHED).info = DAMAGING_ROUNDING) := by
  unfold improveGeoBranch at hx ⊢
  by_cases hcond : (improve_geo && !assessGeoFn delta factor_alpha factor_beta sim simi) = true
  · rw [if_pos hcond] at hx ⊢
    cases hdrop : setdropGeoFn delta factor_alpha factor_beta sim simi with
    | none =>
        simp only [hdrop] at hx
        simp [INFO_DEFAULT, DAMAGING_ROUNDING] at hx
    | some j =>
        simp only [hdrop] at hx ⊢
        exact geoBranchCore_no_damaging_break inv calcfc geostepFn j delta cpen ctol
          cweight ftarget maxfun maxfilt nf conmat cval fval sim simi filt
          MAXTR_REACHED (by decide)
  · rw [if_neg hcond] at hx
    simp [INFO_DEFAULT, DAMAGING_ROUNDING] at hx

/-- Witness for C1: a concrete improve-geo iteration (the damaging state
of the C3 counterexample embedded in the branch, with a geometry step
d = [1/10, -1/10] and an inaccurate refactorization) in which updatexfc
reports DAMAGING_ROUNDING, yet the block does not terminate the loop with
that code. -/
theorem geo_branch_ignores_updatexfc_damaging_witness :
    (improveGeoBranch (fun _ => [[.val 10, .val 0], [.val 0, .val 10]])
        (fun _ => (.val 0, [.val 0]))
        (fun _ _ _ _ _ => false)
        (fun _ _ _ _ _ => some 0)
        (fun _ _ _ _ _ _ _ _ => [.val (mkRat 1 10), .val (mkRat (-1) 10)])
        true (.val 1) (.val 1) (.val 0) (.val 1) (.val (-1)) 100 5 5
        [[.val 3, .val 3, .val 3]]
        [.val 1, .val 1, .val 1]
        [.val 5, .val 5, .val 5]
        [[.val 1, .val 0, .val 0], [.val 0, .val 1, .val 0]]
        [[.val 1, .val (mkRat 9 10)], [.val 0, .val 1]]
        [] MAXTR_REACHED).xfcInfo = DAMAGING_ROUNDING ∧
    ¬((improveGeoBranch (fun _ => [[.val 10, .val 0], [.val 0, .val 10]])
        (fun _ => (.val 0, [.val 0]))
        (fun _ _ _ _ _ => false)
        (fun _ _ _ _ _ => some 0)
        (fun _ _ _ _ _ _ _ _ => [.val (mkRat 1 10), .val (mkRat (-1) 10)])
        true (.val 1) (.val 1) (.val 0) (.val 1) (.val (-1)) 100 5 5
        [[.val 3, .val 3, .val 3]]
        [.val 1, .val 1, .val 1]
        [.val 5, .val 5, .val 5]
        [[.val 1, .val 0, .val 0], [.val 0, .val 1, .val 0]]
        [[.val 1, .val (mkRat 9 10)], [.val 0, .val 1]]
        [] MAXTR_REACHED).broke = true ∧
      (improveGeoBranch (fun _ => [[.val 10, .val 0], [.val 0, .val 10]])
        (fun _ => (.val 0, [.val 0]))
        (fun _ _ _ _ _ => false)
        (fun _ _ _ _ _ => some 0)
        (fun _ _ _ _ _ _ _ _ => [.val (mkRat 1 10), .val (mkRat (-1) 10)])
        true (.val 1) (.val 1) (.val 0) (.val 1) (.val (-1)) 100 5 5
        [[.val 3, .val 3, .val 3]]
        [.val 1, .val 1, .val 1]
        [.val 5, .val 5, .val 5]
        [[.val 1, .val 0, .val 0], [.val 0, .val 1, .val 0]]
        [[.val 1, .val (mkRat 9 10)], [.val 0, .val 1]]
        [] MAXTR_REACHED).info = DAMAGING_ROUNDING) :=
  ⟨by decide,
    geo_branch_ignores_updatexfc_damaging (fun _ => [[.val 10, .val 0], [.val 0, .val 10]])
      (fun _ => (.val 0, [.val 0]))
      (fun _ _ _ _ _ => false)
      (fun _ _ _ _ _ => some 0)
      (fun _ _ _ _ _ _ _ _ => [.val (mkRat 1 10), .val (mkRat (-1) 10)])
      true (.val 1) (.val 1) (.val 0) (.val 1) (.val (-1)) 100 5 5
      [[.val 3, .val 3, .val 3]]
      [.val 1, .val 1, .val 1]
      [.val 5, .val 5, .val 5]
      [[.val 1, .val 0, .val 0], [.val 0, .val 1, .val 0]]
      [[.val 1, .val (mkRat 9 10)], [.val 0, .val 1]]
      [] (by decide)⟩
